import Mathlib

/-!
Verification development for the swamp credential tool (src/swamp.go).

The program exchanges an MFA-protected base profile for an intermediate
session token, assumes a role into a target account, persists the resulting
credentials as named profiles, optionally writes an export file, and loops
when renewal is requested.

Embedding style: the external AWS STS capability, the MFA command / prompt,
and the profile writer are modelled as an oracle (`Provider`) giving each
call site its outcome; the orchestration functions of swamp.go are
translated into Lean functions that thread an explicit trace of observable
events (`Event`) and model `die` (process termination) as `Except`, where
the error carries the fatal message and the trace up to the point of death.
-/

/-- Failure causes of a remote provider call (expired token, missing
profile, network error, ...).  The program never distinguishes them. -/
inductive PErr
  | expiredToken
  | missingProfile
  | networkError
  | authError
  | throttling
  deriving DecidableEq, Repr

/-- Credentials returned by the provider (sts.Credentials). -/
structure Credentials where
  accessKeyId : String
  secretAccessKey : String
  sessionToken : String
  deriving DecidableEq, Repr

/-- SwampConfig: the validated configuration struct (fields as used by
swamp.go; the flag-parsing file is outside src/, but every field below is
read by swamp.go itself). -/
structure SwampConfig where
  profile : String
  intermediateProfile : String
  targetProfile : String
  region : String
  roleArn : String
  tokenSerialNumber : String
  mfaExec : String
  intermediateDuration : Int
  targetDuration : Int
  exportProfile : Bool
  exportFile : String
  renew : Bool

/-- Modelled from the spec: `config.GetRoleArn()` is defined in the
repository's configuration file, which is not under src/; per the spec the
configuration carries a role ARN, so the getter returns that field. -/
def SwampConfig.GetRoleArn (c : SwampConfig) : String :=
  c.roleArn

/-- session.Options as built by newSessionOptions: a profile name and a
region.  swamp.go always passes a (non-nil) pointer to the configured
region, so the region is a plain string here. -/
structure SessionOptions where
  profile : String
  region : String
  deriving DecidableEq, Repr

/-- newSessionOptions (swamp.go lines 97-101). -/
def newSessionOptions (profile region : String) : SessionOptions :=
  { profile := profile, region := region }

/-- getIntermediateSessionOptions (swamp.go lines 89-91). -/
def getIntermediateSessionOptions (c : SwampConfig) : SessionOptions :=
  newSessionOptions c.intermediateProfile c.region

/-- getBaseSessionOptions (swamp.go lines 93-95). -/
def getBaseSessionOptions (c : SwampConfig) : SessionOptions :=
  newSessionOptions c.profile c.region

/-- Oracle for the external world.  Each field fixes the outcome of one
call site of the program; distinct call sites have distinct fields because
the outcomes of distinct remote calls are independent (the world changes
between calls: for instance the identity check on the intermediate profile
can fail while the later caller-identity lookup, made after the refresh,
succeeds).  `execOutput` is the stdout of the MFA shell command,
`stdinLine` the line read from the interactive prompt, `checkIdentity` the
GetCallerIdentity made inside validateSessionToken, `callerIdentity` the
GetCallerIdentity made inside ensureTargetProfile, `writeProfileOk`
whether ProfileWriter.WriteProfile (a repository file outside src/,
modelled at its call boundary) returns nil, and `exportCreateOk` whether
os.Create of the export file succeeds. -/
structure Provider where
  execOutput : String → Except Unit String
  stdinLine : Except Unit String
  checkIdentity : String → String → Except PErr String
  callerIdentity : String → String → Except PErr String
  sessionToken : String → String → Int → String → String → Except PErr Credentials
  assumeRole : String → String → String → String → Int → Except PErr Credentials
  writeProfileOk : String → Bool
  exportCreateOk : Bool

/-- Observable events of one run: remote calls, MFA acquisition, profile
writes, export-file writes and sleeps, in program order. -/
inductive Event
  | validateCall (profile region : String) (result : Bool)
  | acquireToken (raw : String)
  | sessionTokenCall (profile region serial code : String) (duration : Int)
  | callerIdCall (profile region : String)
  | assumeRoleCall (profile region roleArn sessionName : String) (duration : Int)
  | writeProfile (name : String) (cred : Credentials) (region : String)
  | exportFileWrite (path content : String)
  | sleepSec (seconds : Int)
  deriving DecidableEq, Repr

/-- Recognizes a session-token issuance call. -/
def Event.isSessionTokenCall : Event → Bool
  | .sessionTokenCall _ _ _ _ _ => true
  | _ => false

/-- Recognizes a role-assumption call. -/
def Event.isAssumeRoleCall : Event → Bool
  | .assumeRoleCall _ _ _ _ _ => true
  | _ => false

/-- Recognizes a sleep. -/
def Event.isSleep : Event → Bool
  | .sleepSec _ => true
  | _ => false

/-- Recognizes a profile write under the given name. -/
def Event.isWriteTo (nm : String) : Event → Bool
  | .writeProfile n _ _ => n == nm
  | _ => false

/-- Result of a fallible step: on success the trace and a value, on death
the fatal message and the trace up to death. -/
abbrev Run (α : Type) := Except (String × List Event) α

/-- Trace of a step, whether it completed or died. -/
def traceOf : Run (List Event) → List Event
  | .ok tr => tr
  | .error (_, tr) => tr

/-- Trace of a step that also returns a value. -/
def traceOfPair {α : Type} : Run (List Event × α) → List Event
  | .ok (tr, _) => tr
  | .error (_, tr) => tr

/-- Go strings.Split for a one-character separator: split at every
occurrence of `sep`, keeping empty segments; always returns at least one
segment. -/
def splitOnChar (sep : Char) : List Char → List (List Char)
  | [] => [[]]
  | c :: rest =>
    if c = sep then [] :: splitOnChar sep rest
    else
      match splitOnChar sep rest with
      | [] => [[c]]
      | h :: t => (c :: h) :: t

/-- The role-session name derivation of ensureTargetProfile (swamp.go
lines 133-135): split the ARN on the slash and take the final element. -/
def lastSegment (s : String) : String :=
  ⟨(splitOnChar '/' s.data).getLastD []⟩

/-- Cutset of Go strings.Trim in cleanTokenCode: space, carriage return,
line feed (swamp.go line 32) — note the absence of the tab character. -/
def swampCutset : List Char := [' ', '\r', '\n']

/-- Go strings.Trim on the character list: remove every leading and
trailing character contained in the cutset. -/
def trimList (cut : List Char) (cs : List Char) : List Char :=
  ((cs.dropWhile fun c => cut.contains c).reverse.dropWhile
    fun c => cut.contains c).reverse

/-- Go strings.Trim: remove from both ends every leading/trailing
character contained in the cutset. -/
def goTrim (s : String) (cutset : List Char) : String :=
  ⟨trimList cutset s.data⟩

/-- cleanTokenCode (swamp.go lines 31-33). -/
def cleanTokenCode (tokenCode : String) : String :=
  goTrim tokenCode swampCutset

/-- The raw token string the oracle hands to getTokenCode on the branch
the configuration selects (shell command when mfaExec is non-empty,
interactive prompt otherwise). -/
def rawTokenResult (p : Provider) (c : SwampConfig) : Except Unit String :=
  if c.mfaExec ≠ "" then p.execOutput c.mfaExec else p.stdinLine

/-- getTokenCode (swamp.go lines 56-64) with fetchTokenCode (35-43) and
askForTokenCode (45-54) inlined: obtain the raw token from the command or
the prompt (dying on failure with the corresponding message) and return
cleanTokenCode of it. -/
def getTokenCode (p : Provider) (c : SwampConfig) : Run (List Event × String) :=
  if c.mfaExec ≠ "" then
    match p.execOutput c.mfaExec with
    | .error _ => .error ("Error obtaining mfa token", [])
    | .ok out => .ok ([Event.acquireToken out], cleanTokenCode out)
  else
    match p.stdinLine with
    | .error _ => .error ("Error reading mfa token", [])
    | .ok line => .ok ([Event.acquireToken line], cleanTokenCode line)

/-- validateSessionToken (swamp.go lines 66-71): build a session from the
options, call GetCallerIdentity and return whether it succeeded.  Session
construction itself is the opaque provider capability and is modelled as
total; the call's outcome is the oracle's `checkIdentity`. -/
def validateSessionToken (p : Provider) (options : SessionOptions) : Bool :=
  match p.checkIdentity options.profile options.region with
  | .ok _ => true
  | .error _ => false

/-- getSessionToken (swamp.go lines 73-87): acquire the MFA code, then
request a session token with the session's profile and region, the
configured intermediate duration, the MFA serial and the code; die on
provider error. -/
def getSessionToken (p : Provider) (options : SessionOptions) (c : SwampConfig) :
    Run (List Event × Credentials) :=
  match getTokenCode p c with
  | .error e => .error e
  | .ok (tr, tokenCode) =>
    match p.sessionToken options.profile options.region c.intermediateDuration
        c.tokenSerialNumber tokenCode with
    | .error _ => .error ("Error getting session token",
        tr ++ [Event.sessionTokenCall options.profile options.region
          c.tokenSerialNumber tokenCode c.intermediateDuration])
    | .ok cred => .ok (tr ++ [Event.sessionTokenCall options.profile options.region
        c.tokenSerialNumber tokenCode c.intermediateDuration], cred)

/-- ensureSessionTokenProfile (swamp.go lines 105-114): validate the
session token of the intermediate profile; when invalid, get a fresh
session token with the base profile options and write it under the
intermediate profile name (the write event records the call to
ProfileWriter.WriteProfile; a writer error is fatal). -/
def ensureSessionTokenProfile (p : Provider) (c : SwampConfig) : Run (List Event) :=
  if validateSessionToken p (getIntermediateSessionOptions c) then
    .ok [Event.validateCall c.intermediateProfile c.region true]
  else
    match getSessionToken p (getBaseSessionOptions c) c with
    | .error (m, tr) =>
      .error (m, Event.validateCall c.intermediateProfile c.region false :: tr)
    | .ok (tr, cred) =>
      if p.writeProfileOk c.intermediateProfile then
        .ok (Event.validateCall c.intermediateProfile c.region false ::
          tr ++ [Event.writeProfile c.intermediateProfile cred c.region])
      else
        .error ("Error writing profile",
          Event.validateCall c.intermediateProfile c.region false ::
            tr ++ [Event.writeProfile c.intermediateProfile cred c.region])

/-- ensureTargetProfile (swamp.go lines 130-141) with getCallerId (22-29)
and assumeRole (116-127) inlined: look up the caller identity of the
session, derive the role-session name as the last slash-segment of the
identity ARN, assume the configured role with it and the target duration,
and write the resulting credentials under the target profile name with
the session's region. -/
def ensureTargetProfile (p : Provider) (c : SwampConfig) (sess : SessionOptions) :
    Run (List Event) :=
  match p.callerIdentity sess.profile sess.region with
  | .error _ =>
    .error ("Error fetching caller id", [Event.callerIdCall sess.profile sess.region])
  | .ok arn =>
    match p.assumeRole sess.profile sess.region c.GetRoleArn (lastSegment arn)
        c.targetDuration with
    | .error _ =>
      .error ("Error assuming role",
        [Event.callerIdCall sess.profile sess.region,
         Event.assumeRoleCall sess.profile sess.region c.GetRoleArn
           (lastSegment arn) c.targetDuration])
    | .ok cred =>
      if p.writeProfileOk c.targetProfile then
        .ok [Event.callerIdCall sess.profile sess.region,
             Event.assumeRoleCall sess.profile sess.region c.GetRoleArn
               (lastSegment arn) c.targetDuration,
             Event.writeProfile c.targetProfile cred sess.region]
      else
        .error ("Error writing profile",
          [Event.callerIdCall sess.profile sess.region,
           Event.assumeRoleCall sess.profile sess.region c.GetRoleArn
             (lastSegment arn) c.targetDuration,
           Event.writeProfile c.targetProfile cred sess.region])

/-- The export-file content written by writeProfileToFile (swamp.go line
150): one line activating the target profile and two unset lines. -/
def exportFileContent (c : SwampConfig) : String :=
  "export AWS_PROFILE=" ++ c.targetProfile ++
    "\nunset AWS_ACCESS_KEY_ID\nunset AWS_SECRET_ACCESS_KEY\n"

/-- writeProfileToFile (swamp.go lines 143-151) as a function from the
prior file contents to the new file contents: os.Create truncates, so the
prior contents are ignored and the file holds exactly the fixed snippet. -/
def writeProfileToFile (c : SwampConfig) (_priorContents : String) : String :=
  exportFileContent c

/-- Lines of a text file: the segments between newline characters, with
the empty segment after a final terminating newline not counted as a
line. -/
def fileLines (s : String) : List String :=
  (if (splitOnChar '\n' s.data).getLastD [] = [] then (splitOnChar '\n' s.data).dropLast
   else splitOnChar '\n' s.data).map fun cs => (⟨cs⟩ : String)

/-- One iteration of the main loop body (swamp.go lines 176-188): the
intermediate step when an MFA serial is configured, then the target step
with a session built from the intermediate profile (MFA) or the base
profile, then the export step when requested. -/
def cycle (p : Provider) (c : SwampConfig) : Run (List Event) :=
  match (if c.tokenSerialNumber ≠ "" then ensureSessionTokenProfile p c else .ok []) with
  | .error e => .error e
  | .ok tr1 =>
    match ensureTargetProfile p c (newSessionOptions
        (if c.tokenSerialNumber ≠ "" then c.intermediateProfile else c.profile)
        c.region) with
    | .error (m, tr2) => .error (m, tr1 ++ tr2)
    | .ok tr2 =>
      if c.exportProfile then
        if p.exportCreateOk then
          .ok (tr1 ++ tr2 ++ [Event.exportFileWrite c.exportFile (exportFileContent c)])
        else
          .error ("Error writing target profile to export file", tr1 ++ tr2)
      else
        .ok (tr1 ++ tr2)

/-- Outcome of running the main loop with a given amount of fuel:
`done` when the loop exited via break, `died` on a fatal error, `running`
when the fuel ran out with the loop still going. -/
inductive RunResult
  | done (trace : List Event)
  | died (msg : String) (trace : List Event)
  | running (trace : List Event)
  deriving Repr

/-- Trace of a run result. -/
def RunResult.trace : RunResult → List Event
  | .done tr => tr
  | .died _ tr => tr
  | .running tr => tr

/-- Prepend events to the trace of a run result. -/
def RunResult.prependTrace (pre : List Event) : RunResult → RunResult
  | .done tr => .done (pre ++ tr)
  | .died m tr => .died m (pre ++ tr)
  | .running tr => .running (pre ++ tr)

/-- The main loop (swamp.go lines 175-194): run a cycle, break when renew
is off, otherwise sleep targetDuration/2 seconds (Go integer division)
and loop.  `ps` gives the oracle of each iteration; `fuel` bounds the
number of observed iterations without bounding the loop itself. -/
def mainLoop (ps : Nat → Provider) (c : SwampConfig) : Nat → RunResult
  | 0 => .running []
  | fuel + 1 =>
    match cycle (ps 0) c with
    | .error (m, tr) => .died m tr
    | .ok tr =>
      if c.renew then
        RunResult.prependTrace (tr ++ [Event.sleepSec (c.targetDuration.tdiv 2)])
          (mainLoop (fun n => ps (n + 1)) c fuel)
      else
        .done tr

/-- main after flag validation (swamp.go lines 165-194).  Modelled from
the spec: NewProfileWriter lives in a repository file outside src/ and
per the spec may fail when the durable store cannot be opened or created;
its outcome is the boolean `profileWriterOk`.  On failure main dies
before the loop (swamp.go lines 171-174). -/
def mainRun (profileWriterOk : Bool) (ps : Nat → Provider) (c : SwampConfig)
    (fuel : Nat) : RunResult :=
  if profileWriterOk then mainLoop ps c fuel
  else .died "Error initializing profile writer" []

/-- Sample credentials for concrete runs. -/
def okCred : Credentials :=
  ⟨"AKIDEXAMPLE", "secretKeyExample", "sessionTokenExample"⟩

/-- Oracle in which every external interaction succeeds. -/
def pAllOk : Provider where
  execOutput := fun _ => .ok "123456\n"
  stdinLine := .ok "654321\n"
  checkIdentity := fun _ _ => .ok "arn:aws:iam::1:user/alice"
  callerIdentity := fun _ _ => .ok "arn:aws:iam::1:user/alice"
  sessionToken := fun _ _ _ _ _ => .ok okCred
  assumeRole := fun _ _ _ _ _ => .ok okCred
  writeProfileOk := fun _ => true
  exportCreateOk := true

/-- Oracle in which the intermediate-session validity check fails and
everything else succeeds. -/
def pInvalidSession : Provider :=
  { pAllOk with checkIdentity := fun _ _ => .error .expiredToken }

/-- Sample configuration: MFA serial set, interactive prompt, no export,
no renewal. -/
def cfgBase : SwampConfig where
  profile := "default"
  intermediateProfile := "session-token"
  targetProfile := "target"
  region := "eu-central-1"
  roleArn := "arn:aws:iam::2:role/admin"
  tokenSerialNumber := "arn:aws:iam::1:mfa/alice"
  mfaExec := ""
  intermediateDuration := 43200
  targetDuration := 3600
  exportProfile := false
  exportFile := "/tmp/swamp"
  renew := false

/-- Configuration whose target profile name coincides with the
intermediate profile name. -/
def cfgClash : SwampConfig :=
  { cfgBase with targetProfile := "session-token" }

/-- Configuration without an MFA serial. -/
def cfgNoMfa : SwampConfig :=
  { cfgBase with tokenSerialNumber := "" }

/-- Configuration whose target profile name contains a newline. -/
def cfgNlProfile : SwampConfig :=
  { cfgBase with targetProfile := "tar\nget" }

/-- Configuration with renewal enabled. -/
def cfgRenew : SwampConfig :=
  { cfgBase with renew := true }

/-- Whitespace characters, matching Char.isWhitespace. -/
def wsCutset : List Char := [' ', '\t', '\r', '\n']

/-- Two strings differ only in leading and trailing characters drawn from
the cutset: both are edge-paddings of one common core. -/
def EdgeVariant (cut : List Char) (a b : String) : Prop :=
  ∃ core l1 r1 l2 r2 : List Char,
    (∀ c ∈ l1, c ∈ cut) ∧ (∀ c ∈ r1, c ∈ cut) ∧
    (∀ c ∈ l2, c ∈ cut) ∧ (∀ c ∈ r2, c ∈ cut) ∧
    a.data = l1 ++ core ++ r1 ∧ b.data = l2 ++ core ++ r2

theorem contains_true_iff {cut : List Char} {c : Char} :
    cut.contains c = true ↔ c ∈ cut := by
  simp [List.contains]

theorem splitOnChar_cons (sep c : Char) (rest : List Char) :
    splitOnChar sep (c :: rest) =
      if c = sep then [] :: splitOnChar sep rest
      else match splitOnChar sep rest with
        | [] => [[c]]
        | h :: t => (c :: h) :: t := rfl

theorem splitOnChar_ne_nil (sep : Char) (cs : List Char) :
    splitOnChar sep cs ≠ [] := by
  induction cs with
  | nil => simp [splitOnChar]
  | cons c rest ih =>
    rw [splitOnChar_cons]
    by_cases h : c = sep
    · simp [h]
    · simp only [if_neg h]
      cases hs : splitOnChar sep rest with
      | nil => simp
      | cons hd tl => simp

theorem splitOnChar_no_sep {sep : Char} {cs : List Char} (h : sep ∉ cs) :
    splitOnChar sep cs = [cs] := by
  induction cs with
  | nil => rfl
  | cons c rest ih =>
    have h' : sep ≠ c ∧ sep ∉ rest := by
      simpa [not_or] using h
    rw [splitOnChar_cons, if_neg (Ne.symm h'.1), ih h'.2]

theorem two_le_splitOnChar_length {sep : Char} {cs : List Char} (h : sep ∈ cs) :
    2 ≤ (splitOnChar sep cs).length := by
  induction cs with
  | nil => cases h
  | cons c rest ih =>
    rw [splitOnChar_cons]
    by_cases hc : c = sep
    · rw [if_pos hc]
      have h1 : 1 ≤ (splitOnChar sep rest).length :=
        List.length_pos.mpr (splitOnChar_ne_nil sep rest)
      simpa using Nat.succ_le_succ h1
    · rw [if_neg hc]
      have hm : sep ∈ rest := by
        rcases List.mem_cons.mp h with h1 | h1
        · exact absurd h1.symm hc
        · exact h1
      have h2 := ih hm
      cases hs : splitOnChar sep rest with
      | nil => exact absurd hs (splitOnChar_ne_nil sep rest)
      | cons hd tl =>
        rw [hs] at h2
        simpa using h2

theorem getLastD_irrel {α : Type} {l : List α} (h : l ≠ []) (a b : α) :
    l.getLastD a = l.getLastD b := by
  cases l with
  | nil => exact absurd rfl h
  | cons x t => rw [List.getLastD_cons, List.getLastD_cons]

theorem getLastD_splitOnChar_append (sep : Char) (xs ys : List Char) :
    ∀ d, (splitOnChar sep (xs ++ sep :: ys)).getLastD d =
      (splitOnChar sep ys).getLastD d := by
  induction xs with
  | nil =>
    intro d
    simp only [List.nil_append]
    rw [splitOnChar_cons, if_pos rfl, List.getLastD_cons]
    exact getLastD_irrel (splitOnChar_ne_nil sep ys) [] d
  | cons x xs ih =>
    intro d
    rw [List.cons_append, splitOnChar_cons]
    by_cases hx : x = sep
    · rw [if_pos hx, List.getLastD_cons]
      exact (ih []).trans (getLastD_irrel (splitOnChar_ne_nil sep ys) [] d)
    · rw [if_neg hx]
      have hmem : sep ∈ xs ++ sep :: ys := by simp
      have h2 := two_le_splitOnChar_length hmem
      cases hs : splitOnChar sep (xs ++ sep :: ys) with
      | nil => exact absurd hs (splitOnChar_ne_nil _ _)
      | cons hd tl =>
        rw [hs] at h2
        have htl : tl ≠ [] := by
          intro hh
          rw [hh] at h2
          simp at h2
        have hih := ih d
        rw [hs, List.getLastD_cons] at hih
        rw [List.getLastD_cons]
        exact (getLastD_irrel htl (x :: hd) hd).trans hih

theorem lastSegment_append_alice (pre : String) :
    lastSegment (pre ++ "/alice") = "alice" := by
  apply String.ext
  show (splitOnChar '/' (pre ++ "/alice").data).getLastD [] = _
  rw [String.data_append]
  have hdata : ("/alice" : String).data = '/' :: ("alice" : String).data := rfl
  rw [hdata, getLastD_splitOnChar_append]
  have hns : '/' ∉ ("alice" : String).data := by decide
  rw [splitOnChar_no_sep hns]
  rfl

theorem lastSegment_no_slash {s : String} (h : '/' ∉ s.data) :
    lastSegment s = s := by
  apply String.ext
  show (splitOnChar '/' s.data).getLastD [] = s.data
  rw [splitOnChar_no_sep h]
  rfl

theorem trimList_append_left {cut pre cs : List Char}
    (h : ∀ c ∈ pre, c ∈ cut) :
    trimList cut (pre ++ cs) = trimList cut cs := by
  unfold trimList
  rw [List.dropWhile_append_of_pos]
  intro a ha
  exact contains_true_iff.mpr (h a ha)

theorem trimList_append_right {cut cs suf : List Char}
    (h : ∀ c ∈ suf, c ∈ cut) :
    trimList cut (cs ++ suf) = trimList cut cs := by
  unfold trimList
  rw [List.dropWhile_append]
  by_cases he : (cs.dropWhile fun c => cut.contains c).isEmpty
  · rw [if_pos he]
    have h1 : (suf.dropWhile fun c => cut.contains c) = [] := by
      rw [List.dropWhile_eq_nil_iff]
      intro x hx
      exact contains_true_iff.mpr (h x hx)
    have h2 : (cs.dropWhile fun c => cut.contains c) = [] := by
      simpa [List.isEmpty_iff] using he
    rw [h1, h2]
  · rw [if_neg he, List.reverse_append, List.dropWhile_append_of_pos]
    intro a ha
    exact contains_true_iff.mpr (h a (List.mem_reverse.mp ha))

theorem trimList_edge {cut l r core : List Char}
    (hl : ∀ c ∈ l, c ∈ cut) (hr : ∀ c ∈ r, c ∈ cut) :
    trimList cut (l ++ core ++ r) = trimList cut core := by
  rw [List.append_assoc, trimList_append_left hl, trimList_append_right hr]

theorem trimList_head {cut cs : List Char} {ch : Char}
    (h : (trimList cut cs).head? = some ch) : ch ∉ cut := by
  unfold trimList at h
  rw [List.head?_reverse] at h
  obtain ⟨t, ht⟩ := List.dropWhile_suffix (l := (cs.dropWhile fun c => cut.contains c).reverse)
    (fun c => cut.contains c)
  have hx : ((cs.dropWhile fun c => cut.contains c).reverse).getLast? = some ch := by
    rw [← ht, List.getLast?_append, h, Option.or_some]
  rw [List.getLast?_reverse] at hx
  have h1 := List.head?_dropWhile_not (fun c => cut.contains c) cs
  rw [hx] at h1
  have h2 : cut.contains ch = false := by simpa using h1
  intro hmem
  have h3 := contains_true_iff.mpr hmem
  rw [h2] at h3
  cases h3

theorem trimList_getLast {cut cs : List Char} {ch : Char}
    (h : (trimList cut cs).getLast? = some ch) : ch ∉ cut := by
  unfold trimList at h
  rw [List.getLast?_reverse] at h
  have h1 := List.head?_dropWhile_not (fun c => cut.contains c)
    ((cs.dropWhile fun c => cut.contains c).reverse)
  rw [h] at h1
  have h2 : cut.contains ch = false := by simpa using h1
  intro hmem
  have h3 := contains_true_iff.mpr hmem
  rw [h2] at h3
  cases h3

theorem cleanTokenCode_edge {a b : String}
    (h : EdgeVariant swampCutset a b) :
    cleanTokenCode a = cleanTokenCode b := by
  obtain ⟨core, l1, r1, l2, r2, h1, h2, h3, h4, ha, hb⟩ := h
  unfold cleanTokenCode goTrim
  congr 1
  rw [ha, hb, trimList_edge h1 h2, trimList_edge h3 h4]

theorem traceOf_ite (cond : Prop) [Decidable cond] (msg : String) (tr : List Event) :
    traceOf (if cond then Except.ok tr else Except.error (msg, tr)) = tr := by
  by_cases h : cond <;> simp [h, traceOf]

theorem ensureTargetProfile_events (p : Provider) (c : SwampConfig) (sess : SessionOptions) :
    ∀ e ∈ traceOf (ensureTargetProfile p c sess),
      e.isSessionTokenCall = false ∧ e.isSleep = false ∧
        ∀ nm, e.isWriteTo nm = true → nm = c.targetProfile := by
  intro e he
  rcases hci : p.callerIdentity sess.profile sess.region with err | arn <;>
    simp only [ensureTargetProfile, hci] at he
  · simp only [traceOf, List.mem_singleton] at he
    subst he
    exact ⟨rfl, rfl, fun nm h => by cases h⟩
  · rcases har : p.assumeRole sess.profile sess.region c.GetRoleArn (lastSegment arn)
        c.targetDuration with err2 | cred <;> simp only [har] at he
    · simp only [traceOf, List.mem_cons, List.not_mem_nil, or_false] at he
      rcases he with he | he <;> subst he <;>
        exact ⟨rfl, rfl, fun nm h => by cases h⟩
    · split at he <;>
        simp only [traceOf, List.mem_cons, List.not_mem_nil, or_false] at he <;>
        rcases he with he | he | he <;> subst he
      · exact ⟨rfl, rfl, fun nm h => by cases h⟩
      · exact ⟨rfl, rfl, fun nm h => by cases h⟩
      · exact ⟨rfl, rfl, fun nm h => (eq_of_beq h).symm⟩
      · exact ⟨rfl, rfl, fun nm h => by cases h⟩
      · exact ⟨rfl, rfl, fun nm h => by cases h⟩
      · exact ⟨rfl, rfl, fun nm h => (eq_of_beq h).symm⟩

theorem ensureTargetProfile_ok_shape {p : Provider} {c : SwampConfig}
    {sess : SessionOptions} {tr : List Event}
    (h : ensureTargetProfile p c sess = .ok tr) :
    ∃ arn cred,
      p.callerIdentity sess.profile sess.region = .ok arn ∧
      p.assumeRole sess.profile sess.region c.GetRoleArn (lastSegment arn)
        c.targetDuration = .ok cred ∧
      tr = [Event.callerIdCall sess.profile sess.region,
            Event.assumeRoleCall sess.profile sess.region c.GetRoleArn
              (lastSegment arn) c.targetDuration,
            Event.writeProfile c.targetProfile cred sess.region] := by
  rcases hci : p.callerIdentity sess.profile sess.region with err | arn <;>
    simp only [ensureTargetProfile, hci] at h
  · exact Except.noConfusion h
  · rcases har : p.assumeRole sess.profile sess.region c.GetRoleArn (lastSegment arn)
        c.targetDuration with err2 | cred <;> simp only [har] at h
    · exact Except.noConfusion h
    · split at h
      · injection h with h1
        exact ⟨arn, cred, rfl, har, h1.symm⟩
      · exact Except.noConfusion h

theorem ensureSessionTokenProfile_valid {p : Provider} {c : SwampConfig}
    (h : validateSessionToken p (getIntermediateSessionOptions c) = true) :
    ensureSessionTokenProfile p c =
      .ok [Event.validateCall c.intermediateProfile c.region true] := by
  simp [ensureSessionTokenProfile, h]

theorem getTokenCode_of_raw {p : Provider} {c : SwampConfig} {raw : String}
    (h : rawTokenResult p c = .ok raw) :
    getTokenCode p c = .ok ([Event.acquireToken raw], cleanTokenCode raw) := by
  unfold rawTokenResult at h
  by_cases hm : c.mfaExec ≠ ""
  · rw [if_pos hm] at h
    simp only [getTokenCode, if_pos hm, h]
  · rw [if_neg hm] at h
    simp only [getTokenCode, if_neg hm, h]

theorem ensureSessionTokenProfile_invalid_trace {p : Provider} {c : SwampConfig}
    {raw : String} {cred : Credentials}
    (hv : validateSessionToken p (getIntermediateSessionOptions c) = false)
    (hraw : rawTokenResult p c = .ok raw)
    (hiss : p.sessionToken c.profile c.region c.intermediateDuration
      c.tokenSerialNumber (cleanTokenCode raw) = .ok cred) :
    traceOf (ensureSessionTokenProfile p c) =
      [Event.validateCall c.intermediateProfile c.region false,
       Event.acquireToken raw,
       Event.sessionTokenCall c.profile c.region c.tokenSerialNumber
         (cleanTokenCode raw) c.intermediateDuration,
       Event.writeProfile c.intermediateProfile cred c.region] := by
  have hg := getTokenCode_of_raw hraw
  have hgst : getSessionToken p (getBaseSessionOptions c) c =
      .ok ([Event.acquireToken raw,
            Event.sessionTokenCall c.profile c.region c.tokenSerialNumber
              (cleanTokenCode raw) c.intermediateDuration], cred) := by
    simp only [getSessionToken, hg, getBaseSessionOptions, newSessionOptions, hiss]
    rfl
  simp only [ensureSessionTokenProfile, hv, Bool.false_eq_true, if_false, hgst]
  split <;> simp [traceOf]

theorem getTokenCode_events (p : Provider) (c : SwampConfig) :
    ∀ e ∈ traceOfPair (getTokenCode p c),
      e.isSleep = false ∧ e.isAssumeRoleCall = false ∧ e.isSessionTokenCall = false ∧
        ∀ nm, e.isWriteTo nm = true → False := by
  intro e he
  unfold getTokenCode at he
  split at he
  · rcases hx : p.execOutput c.mfaExec with u | out <;> simp only [hx] at he <;>
      simp only [traceOfPair, List.mem_singleton, List.not_mem_nil] at he
    subst he
    exact ⟨rfl, rfl, rfl, fun nm h => by cases h⟩
  · rcases hx : p.stdinLine with u | line <;> simp only [hx] at he <;>
      simp only [traceOfPair, List.mem_singleton, List.not_mem_nil] at he
    subst he
    exact ⟨rfl, rfl, rfl, fun nm h => by cases h⟩

theorem getSessionToken_events (p : Provider) (options : SessionOptions) (c : SwampConfig) :
    ∀ e ∈ traceOfPair (getSessionToken p options c),
      e.isSleep = false ∧ e.isAssumeRoleCall = false ∧
        ∀ nm, e.isWriteTo nm = true → False := by
  intro e he
  unfold getSessionToken at he
  rcases hg : getTokenCode p c with ⟨m, tr⟩ | ⟨tr, code⟩ <;> simp only [hg] at he
  · simp only [traceOfPair] at he
    have h1 := getTokenCode_events p c e (by rw [hg]; simpa [traceOfPair] using he)
    exact ⟨h1.1, h1.2.1, h1.2.2.2⟩
  · rcases hs : p.sessionToken options.profile options.region c.intermediateDuration
        c.tokenSerialNumber code with err | cred <;> simp only [hs] at he <;>
      simp only [traceOfPair, List.mem_append, List.mem_singleton] at he <;>
      rcases he with h | h
    · have h1 := getTokenCode_events p c e (by rw [hg]; simpa [traceOfPair] using h)
      exact ⟨h1.1, h1.2.1, h1.2.2.2⟩
    · subst h
      exact ⟨rfl, rfl, fun nm hh => by cases hh⟩
    · have h1 := getTokenCode_events p c e (by rw [hg]; simpa [traceOfPair] using h)
      exact ⟨h1.1, h1.2.1, h1.2.2.2⟩
    · subst h
      exact ⟨rfl, rfl, fun nm hh => by cases hh⟩

theorem ensureSessionTokenProfile_events (p : Provider) (c : SwampConfig) :
    ∀ e ∈ traceOf (ensureSessionTokenProfile p c),
      e.isSleep = false ∧ e.isAssumeRoleCall = false ∧
        ∀ nm, e.isWriteTo nm = true → nm = c.intermediateProfile := by
  intro e he
  unfold ensureSessionTokenProfile at he
  split at he
  · simp only [traceOf, List.mem_singleton] at he
    subst he
    exact ⟨rfl, rfl, fun nm h => by cases h⟩
  · rcases hg : getSessionToken p (getBaseSessionOptions c) c with ⟨m, tr⟩ | ⟨tr, cred⟩ <;>
      simp only [hg] at he
    · simp only [traceOf, List.mem_cons] at he
      rcases he with rfl | he
      · exact ⟨rfl, rfl, fun nm h => by cases h⟩
      · have h1 := getSessionToken_events p (getBaseSessionOptions c) c e
          (by rw [hg]; simpa [traceOfPair] using he)
        exact ⟨h1.1, h1.2.1, fun nm h => (h1.2.2 nm h).elim⟩
    · have hcases : e = Event.validateCall c.intermediateProfile c.region false ∨
          e ∈ tr ∨ e = Event.writeProfile c.intermediateProfile cred c.region := by
        split at he <;> simp only [traceOf] at he <;> simpa using he
      rcases hcases with rfl | h | rfl
      · exact ⟨rfl, rfl, fun nm h => by cases h⟩
      · have h1 := getSessionToken_events p (getBaseSessionOptions c) c e
          (by rw [hg]; simpa [traceOfPair] using h)
        exact ⟨h1.1, h1.2.1, fun nm hh => (h1.2.2 nm hh).elim⟩
      · exact ⟨rfl, rfl, fun nm hh => (eq_of_beq hh).symm⟩

theorem cycle_decomp (p : Provider) (c : SwampConfig) :
    ∃ trB,
      traceOf (cycle p c) =
        traceOf (if c.tokenSerialNumber ≠ "" then ensureSessionTokenProfile p c
          else Except.ok []) ++ trB ∧
      ∀ e ∈ trB, e.isSessionTokenCall = false ∧ e.isSleep = false ∧
        ∀ nm, e.isWriteTo nm = true → nm = c.targetProfile := by
  have htev := ensureTargetProfile_events p c (newSessionOptions
    (if c.tokenSerialNumber ≠ "" then c.intermediateProfile else c.profile) c.region)
  rcases hE : (if c.tokenSerialNumber ≠ "" then ensureSessionTokenProfile p c
      else Except.ok []) with ⟨m, trE⟩ | trE
  · refine ⟨[], ?_, fun e he => absurd he (List.not_mem_nil e)⟩
    simp only [cycle, hE, traceOf, List.append_nil]
  · rcases hT : ensureTargetProfile p c (newSessionOptions
        (if c.tokenSerialNumber ≠ "" then c.intermediateProfile else c.profile) c.region)
      with ⟨m2, tr2⟩ | tr2
    · refine ⟨tr2, ?_, ?_⟩
      · simp only [cycle, hE, hT, traceOf]
      · intro e he
        exact htev e (by rw [hT]; simpa [traceOf] using he)
    · by_cases hex : c.exportProfile = true
      · by_cases hco : p.exportCreateOk = true
        · refine ⟨tr2 ++ [Event.exportFileWrite c.exportFile (exportFileContent c)], ?_, ?_⟩
          · simp only [cycle, hE, hT, hex, hco, if_true, traceOf, List.append_assoc]
          · intro e he
            rcases List.mem_append.mp he with h | h
            · exact htev e (by rw [hT]; simpa [traceOf] using h)
            · obtain rfl := List.mem_singleton.mp h
              exact ⟨rfl, rfl, fun nm hh => by cases hh⟩
        · have hco' : p.exportCreateOk = false := by
            simpa using hco
          refine ⟨tr2, ?_, ?_⟩
          · simp only [cycle, hE, hT, hex, hco', if_true, Bool.false_eq_true, if_false,
              traceOf]
          · intro e he
            exact htev e (by rw [hT]; simpa [traceOf] using he)
      · have hex' : c.exportProfile = false := by
          simpa using hex
        refine ⟨tr2, ?_, ?_⟩
        · simp only [cycle, hE, hT, hex', Bool.false_eq_true, if_false, traceOf]
        · intro e he
          exact htev e (by rw [hT]; simpa [traceOf] using he)

theorem cycle_no_sleep (p : Provider) (c : SwampConfig) :
    ∀ e ∈ traceOf (cycle p c), e.isSleep = false := by
  obtain ⟨trB, hdec, hB⟩ := cycle_decomp p c
  intro e he
  rw [hdec] at he
  rcases List.mem_append.mp he with h | h
  · by_cases hser : c.tokenSerialNumber ≠ ""
    · rw [if_pos hser] at h
      exact (ensureSessionTokenProfile_events p c e h).1
    · rw [if_neg hser] at h
      simp [traceOf] at h
  · exact (hB e h).2.1

theorem countP_split_before {α : Type} {P Q : α → Bool} {trA trB tr1 tr2 : List α} {e : α}
    (h : trA ++ trB = tr1 ++ e :: tr2) (he : Q e = true)
    (hA : ∀ x ∈ trA, Q x = false) (hB : ∀ x ∈ trB, P x = false) :
    tr1.countP P = trA.countP P := by
  rcases List.append_eq_append_iff.mp h with ⟨a', ha1, ha2⟩ | ⟨c', hc1, hc2⟩
  · subst ha1
    have hz : a'.countP P = 0 := by
      rw [List.countP_eq_zero]
      intro x hx
      have : x ∈ trB := by
        rw [ha2]
        exact List.mem_append.mpr (Or.inl hx)
      simp [hB x this]
    rw [List.countP_append, hz, Nat.add_zero]
  · cases c' with
    | nil =>
      simp only [List.append_nil] at hc1
      rw [hc1]
    | cons x c'' =>
      have hx : x = e := by
        have := congrArg (fun l => l.head?) hc2
        simpa using this.symm
      subst hx
      have hmem : x ∈ trA := by
        rw [hc1]
        exact List.mem_append.mpr (Or.inr (List.mem_cons_self x c''))
      have := hA x hmem
      rw [he] at this
      cases this

theorem splitOnChar_nil (sep : Char) : splitOnChar sep [] = [[]] := rfl

theorem splitOnChar_append_sep {sep : Char} {a : List Char} (h : sep ∉ a) (b : List Char) :
    splitOnChar sep (a ++ sep :: b) = a :: splitOnChar sep b := by
  induction a with
  | nil =>
    simp only [List.nil_append]
    rw [splitOnChar_cons, if_pos rfl]
  | cons x xs ih =>
    have h' : sep ≠ x ∧ sep ∉ xs := by simpa [not_or] using h
    rw [List.cons_append, splitOnChar_cons, if_neg (Ne.symm h'.1), ih h'.2]

theorem fileLines_export (tp : String) (hnl : ('\n') ∉ tp.data) :
    fileLines ("export AWS_PROFILE=" ++ tp ++
      "\nunset AWS_ACCESS_KEY_ID\nunset AWS_SECRET_ACCESS_KEY\n") =
      ["export AWS_PROFILE=" ++ tp, "unset AWS_ACCESS_KEY_ID",
       "unset AWS_SECRET_ACCESS_KEY"] := by
  have hA : ('\n') ∉ ("export AWS_PROFILE=" ++ tp).data := by
    rw [String.data_append]
    intro hmem
    rcases List.mem_append.mp hmem with h | h
    · revert h
      decide
    · exact hnl h
  have e1 : ("export AWS_PROFILE=" ++ tp ++
      "\nunset AWS_ACCESS_KEY_ID\nunset AWS_SECRET_ACCESS_KEY\n").data =
      ("export AWS_PROFILE=" ++ tp).data ++
        '\n' :: (("unset AWS_ACCESS_KEY_ID" : String).data ++
          '\n' :: (("unset AWS_SECRET_ACCESS_KEY" : String).data ++ '\n' :: [])) := by
    rw [String.data_append]
    congr 1
  have hs : splitOnChar '\n' (("export AWS_PROFILE=" ++ tp ++
      "\nunset AWS_ACCESS_KEY_ID\nunset AWS_SECRET_ACCESS_KEY\n").data) =
      [("export AWS_PROFILE=" ++ tp).data,
       ("unset AWS_ACCESS_KEY_ID" : String).data,
       ("unset AWS_SECRET_ACCESS_KEY" : String).data, []] := by
    rw [e1, splitOnChar_append_sep hA, splitOnChar_append_sep (by decide),
        splitOnChar_append_sep (by decide), splitOnChar_nil]
  unfold fileLines
  rw [hs]
  rfl

/-- C6: the session validity check returns true exactly when the identity
lookup with the named profile's credentials succeeds, and every failure
cause maps indistinguishably to false.  The check is a total Bool-valued
function — it can neither raise an error nor terminate the process
(session construction itself is the opaque provider capability, modelled
total per the spec's treatment of the SDK). -/
theorem c6_validate_boolean_gate (p : Provider) (options : SessionOptions) :
    (validateSessionToken p options = true ↔
      ∃ arn, p.checkIdentity options.profile options.region = .ok arn) ∧
    ∀ err : PErr, p.checkIdentity options.profile options.region = .error err →
      validateSessionToken p options = false := by
  rcases h : p.checkIdentity options.profile options.region with err | arn <;>
    simp [validateSessionToken, h]

/-- C6 witness: the boolean-gate property evaluated at a concrete oracle
and profile. -/
theorem c6_witness :
    (validateSessionToken pAllOk (newSessionOptions "session-token" "eu-central-1") = true ↔
      ∃ arn, pAllOk.checkIdentity "session-token" "eu-central-1" = .ok arn) ∧
    ∀ err : PErr, pAllOk.checkIdentity "session-token" "eu-central-1" = .error err →
      validateSessionToken pAllOk (newSessionOptions "session-token" "eu-central-1") = false :=
  c6_validate_boolean_gate pAllOk (newSessionOptions "session-token" "eu-central-1")

/-- C9: when the profile-writer initialization fails, main dies with the
corresponding message and an empty trace — so strictly before any
provider call, any profile write and any MFA acquisition. -/
theorem c9_writer_init_fail_fast (ps : Nat → Provider) (c : SwampConfig) (fuel : Nat) :
    mainRun false ps c fuel = .died "Error initializing profile writer" [] ∧
    (mainRun false ps c fuel).trace = [] := by
  constructor <;> simp [mainRun, RunResult.trace]

/-- C9 witness: the fail-fast property at a concrete oracle and
configuration. -/
theorem c9_witness :
    mainRun false (fun _ => pAllOk) cfgBase 3 =
      .died "Error initializing profile writer" [] ∧
    (mainRun false (fun _ => pAllOk) cfgBase 3).trace = [] :=
  c9_writer_init_fail_fast (fun _ => pAllOk) cfgBase 3

/-- C10: the role-session-name derivation is total — splitting any string
on the slash yields at least one element, and a caller identity ARN with
no slash maps to the whole ARN. -/
theorem c10_last_segment_total (s : String) :
    1 ≤ (splitOnChar '/' s.data).length ∧
    ('/' ∉ s.data → lastSegment s = s) := by
  exact ⟨List.length_pos.mpr (splitOnChar_ne_nil '/' s.data), lastSegment_no_slash⟩

/-- C10 witness: totality evaluated at a slash-free ARN, with the
hypothesis discharged concretely. -/
theorem c10_witness :
    1 ≤ (splitOnChar '/' ("arn-without-slash" : String).data).length ∧
    lastSegment "arn-without-slash" = "arn-without-slash" :=
  ⟨(c10_last_segment_total "arn-without-slash").1,
   (c10_last_segment_total "arn-without-slash").2 (by decide)⟩

/-- C5 counterexample: with a target profile name containing a newline
(allowed by the configuration type, which swamp.go reads as an arbitrary
string), the rewritten export file has four lines, not three, so the
claim as stated — exactly three lines for every configuration and prior
contents — fails. -/
theorem c5_counterexample :
    (fileLines (writeProfileToFile cfgNlProfile "prior contents")).length = 4 := by
  decide

/-- C5 (amended): provided the target profile name contains no newline
character, the export step rewrites the file in full — ignoring the prior
contents entirely — to exactly three lines: the line activating the
target profile, then the line unsetting the raw access key variable, then
the line unsetting the raw secret key variable. -/
theorem c5_export_three_lines (c : SwampConfig) (prior1 prior2 : String)
    (hnl : ('\n') ∉ c.targetProfile.data) :
    fileLines (writeProfileToFile c prior1) =
      ["export AWS_PROFILE=" ++ c.targetProfile,
       "unset AWS_ACCESS_KEY_ID",
       "unset AWS_SECRET_ACCESS_KEY"] ∧
    writeProfileToFile c prior1 = writeProfileToFile c prior2 := by
  exact ⟨fileLines_export c.targetProfile hnl, rfl⟩

/-- C5 witness: the three-line export property at a concrete
configuration, with the no-newline hypothesis discharged concretely. -/
theorem c5_witness :
    fileLines (writeProfileToFile cfgBase "some old file text") =
      ["export AWS_PROFILE=" ++ cfgBase.targetProfile,
       "unset AWS_ACCESS_KEY_ID",
       "unset AWS_SECRET_ACCESS_KEY"] ∧
    writeProfileToFile cfgBase "some old file text" = writeProfileToFile cfgBase "" :=
  c5_export_three_lines cfgBase "some old file text" "" (by decide)

/-- C4 counterexample: the code trims only spaces, carriage returns and
line feeds, not all whitespace: a leading tab character survives
cleanTokenCode, and two raw strings that differ only in leading
whitespace (a space versus a tab) yield different forwarded codes, so the
claim as stated fails. -/
theorem c4_counterexample :
    ('\t').isWhitespace = true ∧
    EdgeVariant wsCutset " 123456" "\t123456" ∧
    cleanTokenCode "\t123456" = "\t123456" ∧
    cleanTokenCode " 123456" = "123456" ∧
    cleanTokenCode " 123456" ≠ cleanTokenCode "\t123456" := by
  refine ⟨by decide, ?_, by decide, by decide, by decide⟩
  exact ⟨("123456" : String).data, [' '], [], ['\t'], [],
    by decide, by decide, by decide, by decide, by decide, by decide⟩

/-- C4 (amended): the code forwarded to the provider is cleanTokenCode of
the raw token string; its leading and trailing characters from the Go
cutset — space, carriage return, line feed (not tab or other whitespace)
— are stripped, and any two raw strings differing only in leading and
trailing characters from that cutset yield the identical logical code. -/
theorem c4_trim_cutset (p : Provider) (c : SwampConfig) (tr : List Event) (code : String)
    (h : getTokenCode p c = .ok (tr, code)) :
    (∃ raw, tr = [Event.acquireToken raw] ∧ code = cleanTokenCode raw) ∧
    (∀ ch, code.data.head? = some ch → ch ∉ swampCutset) ∧
    (∀ ch, code.data.getLast? = some ch → ch ∉ swampCutset) ∧
    ∀ a b, EdgeVariant swampCutset a b → cleanTokenCode a = cleanTokenCode b := by
  have hraw : ∃ raw, tr = [Event.acquireToken raw] ∧ code = cleanTokenCode raw := by
    unfold getTokenCode at h
    split at h
    · rcases hx : p.execOutput c.mfaExec with u | out <;> rw [hx] at h
      · exact Except.noConfusion h
      · injection h with h1
        injection h1 with h2 h3
        exact ⟨out, h2.symm, h3.symm⟩
    · rcases hx : p.stdinLine with u | line <;> rw [hx] at h
      · exact Except.noConfusion h
      · injection h with h1
        injection h1 with h2 h3
        exact ⟨line, h2.symm, h3.symm⟩
  obtain ⟨raw, htr, hcode⟩ := hraw
  refine ⟨⟨raw, htr, hcode⟩, ?_, ?_, fun a b hab => cleanTokenCode_edge hab⟩
  · intro ch hch
    rw [hcode] at hch
    exact trimList_head hch
  · intro ch hch
    rw [hcode] at hch
    exact trimList_getLast hch

/-- C4 witness: token acquisition at a concrete oracle (interactive
prompt returning a newline-terminated code), with the acquisition
hypothesis discharged concretely. -/
theorem c4_witness :
    (∃ raw, [Event.acquireToken "654321\n"] = [Event.acquireToken raw] ∧
      ("654321" : String) = cleanTokenCode raw) ∧
    (∀ ch, ("654321" : String).data.head? = some ch → ch ∉ swampCutset) ∧
    (∀ ch, ("654321" : String).data.getLast? = some ch → ch ∉ swampCutset) ∧
    ∀ a b, EdgeVariant swampCutset a b → cleanTokenCode a = cleanTokenCode b :=
  c4_trim_cutset pAllOk cfgBase [Event.acquireToken "654321\n"] "654321" rfl

/-- C3: whatever role-assumption call the target step makes carries a
role-session name equal to the last slash-segment of the caller identity
ARN the provider returned; and for any ARN ending in "/alice" that
segment is exactly "alice". -/
theorem c3_role_session_name (p : Provider) (c : SwampConfig) (sess : SessionOptions)
    (arn : String) (hid : p.callerIdentity sess.profile sess.region = .ok arn) :
    (∀ pr rg ra nm du, Event.assumeRoleCall pr rg ra nm du ∈
        traceOf (ensureTargetProfile p c sess) → nm = lastSegment arn) ∧
    ∀ pre : String, lastSegment (pre ++ "/alice") = "alice" := by
  refine ⟨?_, lastSegment_append_alice⟩
  intro pr rg ra nm du hmem
  rcases har : p.assumeRole sess.profile sess.region c.GetRoleArn (lastSegment arn)
      c.targetDuration with err | cred
  · simp only [ensureTargetProfile, hid, har, traceOf, List.mem_cons,
      List.not_mem_nil, or_false, Event.assumeRoleCall.injEq] at hmem
    rcases hmem with h | h
    · exact Event.noConfusion h
    · exact h.2.2.2.1
  · simp only [ensureTargetProfile, hid, har] at hmem
    rw [traceOf_ite] at hmem
    simp only [List.mem_cons, List.not_mem_nil, or_false,
      Event.assumeRoleCall.injEq] at hmem
    rcases hmem with h | h | h
    · exact Event.noConfusion h
    · exact h.2.2.2.1
    · exact Event.noConfusion h

/-- C3 witness: the derivation at a concrete oracle whose caller identity
ARN ends in "/alice", with the identity hypothesis discharged
concretely. -/
theorem c3_witness :
    (∀ pr rg ra nm du, Event.assumeRoleCall pr rg ra nm du ∈
        traceOf (ensureTargetProfile pAllOk cfgBase
          (newSessionOptions "session-token" "eu-central-1")) →
      nm = lastSegment "arn:aws:iam::1:user/alice") ∧
    ∀ pre : String, lastSegment (pre ++ "/alice") = "alice" :=
  c3_role_session_name pAllOk cfgBase (newSessionOptions "session-token" "eu-central-1")
    "arn:aws:iam::1:user/alice" rfl

/-- C1 counterexample: with the target profile name set equal to the
intermediate profile name ("session-token") and the session still valid,
the cycle's target-profile write lands under the intermediate profile
name, so "no intermediate profile write in that cycle" fails as stated
(exactly one write under that name occurs). -/
theorem c1_counterexample :
    cfgClash.tokenSerialNumber ≠ "" ∧
    validateSessionToken pAllOk (getIntermediateSessionOptions cfgClash) = true ∧
    (traceOf (cycle pAllOk cfgClash)).countP
      (Event.isWriteTo cfgClash.intermediateProfile) = 1 := by
  refine ⟨by decide, by decide, ?_⟩
  decide

/-- C1 (amended): with an MFA serial set and the session validity check
returning true, the cycle makes no session-token issuance call and —
provided the target profile name differs from the intermediate profile
name — performs no write under the intermediate profile name.  (When the
two names coincide, the cycle's ordinary target-profile write is a write
under the intermediate name, which is what the counterexample exhibits.) -/
theorem c1_no_issuance_no_intermediate_write (p : Provider) (c : SwampConfig)
    (hser : c.tokenSerialNumber ≠ "")
    (hvalid : validateSessionToken p (getIntermediateSessionOptions c) = true)
    (hdistinct : c.targetProfile ≠ c.intermediateProfile) :
    ∀ e ∈ traceOf (cycle p c),
      e.isSessionTokenCall = false ∧ e.isWriteTo c.intermediateProfile = false := by
  obtain ⟨trB, hdec, hB⟩ := cycle_decomp p c
  rw [if_pos hser, ensureSessionTokenProfile_valid hvalid] at hdec
  intro e he
  rw [hdec] at he
  rcases List.mem_append.mp he with h | h
  · have he1 : e = Event.validateCall c.intermediateProfile c.region true := by
      simpa [traceOf] using h
    subst he1
    exact ⟨rfl, rfl⟩
  · obtain ⟨h1, _, h3⟩ := hB e h
    refine ⟨h1, ?_⟩
    by_contra hw
    have hw' : e.isWriteTo c.intermediateProfile = true := by
      revert hw
      cases e.isWriteTo c.intermediateProfile <;> simp
    exact hdistinct (h3 c.intermediateProfile hw').symm

/-- C1 witness: the amended property at a concrete oracle and
configuration with distinct target and intermediate names, all three
hypotheses discharged concretely. -/
theorem c1_witness :
    (Event.writeProfile "target" okCred "eu-central-1").isSessionTokenCall = false ∧
    (Event.writeProfile "target" okCred "eu-central-1").isWriteTo
      cfgBase.intermediateProfile = false :=
  c1_no_issuance_no_intermediate_write pAllOk cfgBase (by decide) (by decide) (by decide)
    (Event.writeProfile "target" okCred "eu-central-1") (by decide)

/-- C2: with an MFA serial set, the validity check returning false, the
raw token obtained, and the provider issuing credentials for the cleaned
code, the cycle's trace contains exactly one session-token issuance call;
that call uses the base profile, the configured region, the MFA serial,
the cleaned code and the intermediate duration; the issued credentials
are handed to the profile writer under the intermediate profile name; and
every role-assumption call in the trace comes strictly after the one
issuance call. -/
theorem c2_single_issuance_before_assume (p : Provider) (c : SwampConfig)
    (hser : c.tokenSerialNumber ≠ "")
    (hvalid : validateSessionToken p (getIntermediateSessionOptions c) = false)
    (raw : String) (hraw : rawTokenResult p c = .ok raw)
    (cred : Credentials)
    (hiss : p.sessionToken c.profile c.region c.intermediateDuration
      c.tokenSerialNumber (cleanTokenCode raw) = .ok cred) :
    (traceOf (cycle p c)).countP Event.isSessionTokenCall = 1 ∧
    Event.sessionTokenCall c.profile c.region c.tokenSerialNumber
      (cleanTokenCode raw) c.intermediateDuration ∈ traceOf (cycle p c) ∧
    Event.writeProfile c.intermediateProfile cred c.region ∈ traceOf (cycle p c) ∧
    ∀ tr1 e tr2, traceOf (cycle p c) = tr1 ++ e :: tr2 →
      e.isAssumeRoleCall = true → tr1.countP Event.isSessionTokenCall = 1 := by
  obtain ⟨trB, hdec, hB⟩ := cycle_decomp p c
  rw [if_pos hser, ensureSessionTokenProfile_invalid_trace hvalid hraw hiss] at hdec
  have hcountA : (List.countP Event.isSessionTokenCall
      [Event.validateCall c.intermediateProfile c.region false,
       Event.acquireToken raw,
       Event.sessionTokenCall c.profile c.region c.tokenSerialNumber
         (cleanTokenCode raw) c.intermediateDuration,
       Event.writeProfile c.intermediateProfile cred c.region]) = 1 := by
    simp [List.countP_cons, Event.isSessionTokenCall]
  have hcountB : trB.countP Event.isSessionTokenCall = 0 := by
    rw [List.countP_eq_zero]
    intro x hx
    simp [(hB x hx).1]
  refine ⟨?_, ?_, ?_, ?_⟩
  · rw [hdec, List.countP_append, hcountA, hcountB]
  · rw [hdec]
    refine List.mem_append.mpr (Or.inl ?_)
    simp
  · rw [hdec]
    refine List.mem_append.mpr (Or.inl ?_)
    simp
  · intro tr1 e tr2 hsplit hQ
    have hAB : [Event.validateCall c.intermediateProfile c.region false,
        Event.acquireToken raw,
        Event.sessionTokenCall c.profile c.region c.tokenSerialNumber
          (cleanTokenCode raw) c.intermediateDuration,
        Event.writeProfile c.intermediateProfile cred c.region] ++ trB =
        tr1 ++ e :: tr2 := hdec.symm.trans hsplit
    have hA : ∀ x ∈ [Event.validateCall c.intermediateProfile c.region false,
        Event.acquireToken raw,
        Event.sessionTokenCall c.profile c.region c.tokenSerialNumber
          (cleanTokenCode raw) c.intermediateDuration,
        Event.writeProfile c.intermediateProfile cred c.region],
        Event.isAssumeRoleCall x = false := by
      intro x hx
      simp only [List.mem_cons, List.not_mem_nil, or_false] at hx
      rcases hx with rfl | rfl | rfl | rfl <;> rfl
    have hBP : ∀ x ∈ trB, Event.isSessionTokenCall x = false := fun x hx => (hB x hx).1
    rw [countP_split_before hAB hQ hA hBP, hcountA]

/-- C2 witness: the single-issuance property at a concrete oracle with an
invalid session, all hypotheses discharged concretely. -/
theorem c2_witness :
    (traceOf (cycle pInvalidSession cfgBase)).countP Event.isSessionTokenCall = 1 ∧
    Event.sessionTokenCall cfgBase.profile cfgBase.region cfgBase.tokenSerialNumber
      (cleanTokenCode "654321\n") cfgBase.intermediateDuration ∈
        traceOf (cycle pInvalidSession cfgBase) ∧
    Event.writeProfile cfgBase.intermediateProfile okCred cfgBase.region ∈
      traceOf (cycle pInvalidSession cfgBase) ∧
    ∀ tr1 e tr2, traceOf (cycle pInvalidSession cfgBase) = tr1 ++ e :: tr2 →
      e.isAssumeRoleCall = true → tr1.countP Event.isSessionTokenCall = 1 :=
  c2_single_issuance_before_assume pInvalidSession cfgBase (by decide) (by decide)
    "654321\n" rfl okCred rfl

/-- C8: in a completed cycle, the caller-identity lookup and the
role-assumption call both run against the session built from the
intermediate profile when an MFA serial is configured and from the base
profile otherwise, always with the configured region (the session built
in main carries the configured region, so the spec's fallback to the
configured region is vacuously what happens); the assume-role call uses
the configured role ARN, the derived session name and the target
duration, and the resulting credentials are written under the target
profile name with that session's region. -/
theorem c8_assume_session_and_persist (p : Provider) (c : SwampConfig)
    (tr : List Event) (hok : cycle p c = .ok tr) :
    ∃ arn cred,
      p.callerIdentity (if c.tokenSerialNumber ≠ "" then c.intermediateProfile
        else c.profile) c.region = .ok arn ∧
      p.assumeRole (if c.tokenSerialNumber ≠ "" then c.intermediateProfile
        else c.profile) c.region c.GetRoleArn (lastSegment arn) c.targetDuration = .ok cred ∧
      Event.assumeRoleCall (if c.tokenSerialNumber ≠ "" then c.intermediateProfile
        else c.profile) c.region c.GetRoleArn (lastSegment arn) c.targetDuration ∈ tr ∧
      Event.writeProfile c.targetProfile cred c.region ∈ tr := by
  rcases hE : (if c.tokenSerialNumber ≠ "" then ensureSessionTokenProfile p c
      else Except.ok []) with ⟨m, trE⟩ | trE <;> simp only [cycle, hE] at hok
  · exact Except.noConfusion hok
  · rcases hT : ensureTargetProfile p c (newSessionOptions
        (if c.tokenSerialNumber ≠ "" then c.intermediateProfile else c.profile) c.region)
      with ⟨m2, tr2⟩ | tr2 <;> simp only [hT] at hok
    · exact Except.noConfusion hok
    · obtain ⟨arn, cred, hci, har, htr2⟩ := ensureTargetProfile_ok_shape hT
      have htr : tr = trE ++ tr2 ++ [Event.exportFileWrite c.exportFile
          (exportFileContent c)] ∨ tr = trE ++ tr2 := by
        split at hok
        · split at hok
          · injection hok with h1
            exact Or.inl h1.symm
          · exact Except.noConfusion hok
        · injection hok with h1
          exact Or.inr h1.symm
      have hsubmem : ∀ x ∈ tr2, x ∈ tr := by
        intro x hx
        rcases htr with rfl | rfl <;> simp [List.mem_append, hx]
      refine ⟨arn, cred, hci, har, hsubmem _ ?_, hsubmem _ ?_⟩
      · rw [htr2]
        simp [newSessionOptions]
      · rw [htr2]
        simp [newSessionOptions]

/-- C8 witness: the target-step property at a concrete oracle and a
configuration without MFA, the cycle-completion hypothesis discharged
concretely. -/
theorem c8_witness :
    ∃ arn cred,
      pAllOk.callerIdentity (if cfgNoMfa.tokenSerialNumber ≠ "" then
        cfgNoMfa.intermediateProfile else cfgNoMfa.profile) cfgNoMfa.region = .ok arn ∧
      pAllOk.assumeRole (if cfgNoMfa.tokenSerialNumber ≠ "" then
        cfgNoMfa.intermediateProfile else cfgNoMfa.profile) cfgNoMfa.region
        cfgNoMfa.GetRoleArn (lastSegment arn) cfgNoMfa.targetDuration = .ok cred ∧
      Event.assumeRoleCall (if cfgNoMfa.tokenSerialNumber ≠ "" then
        cfgNoMfa.intermediateProfile else cfgNoMfa.profile) cfgNoMfa.region
        cfgNoMfa.GetRoleArn (lastSegment arn) cfgNoMfa.targetDuration ∈
          [Event.callerIdCall "default" "eu-central-1",
           Event.assumeRoleCall "default" "eu-central-1" "arn:aws:iam::2:role/admin"
             "alice" 3600,
           Event.writeProfile "target" okCred "eu-central-1"] ∧
      Event.writeProfile cfgNoMfa.targetProfile cred cfgNoMfa.region ∈
        [Event.callerIdCall "default" "eu-central-1",
         Event.assumeRoleCall "default" "eu-central-1" "arn:aws:iam::2:role/admin"
           "alice" 3600,
         Event.writeProfile "target" okCred "eu-central-1"] :=
  c8_assume_session_and_persist pAllOk cfgNoMfa
    [Event.callerIdCall "default" "eu-central-1",
     Event.assumeRoleCall "default" "eu-central-1" "arn:aws:iam::2:role/admin"
       "alice" 3600,
     Event.writeProfile "target" okCred "eu-central-1"] rfl

/-- C7: with renew off the loop's outcome is decided by the first cycle
alone — any fuel of at least one iteration gives the same result — and
the resulting trace never contains a sleep; with renew on the loop can
never reach the done state for any amount of fuel (no iteration bound),
and after every completed cycle it appends a sleep of targetDuration/2
seconds (Go truncated integer division) and continues as a fresh run of
the loop with the remaining fuel. -/
theorem c7_renew_loop (ps : Nat → Provider) (c : SwampConfig) :
    (c.renew = false →
      (∀ fuel, 1 ≤ fuel → mainLoop ps c fuel = mainLoop ps c 1) ∧
      ∀ e ∈ (mainLoop ps c 1).trace, e.isSleep = false) ∧
    (c.renew = true →
      (∀ fuel tr, mainLoop ps c fuel ≠ .done tr) ∧
      ∀ fuel tr, cycle (ps 0) c = .ok tr →
        mainLoop ps c (fuel + 1) =
          RunResult.prependTrace (tr ++ [Event.sleepSec (c.targetDuration.tdiv 2)])
            (mainLoop (fun n => ps (n + 1)) c fuel)) := by
  constructor
  · intro hren
    constructor
    · intro fuel hfuel
      rcases Nat.exists_eq_add_of_le hfuel with ⟨n, hn⟩
      subst hn
      rw [show (1 : Nat) + n = n + 1 from Nat.add_comm 1 n]
      conv_rhs => rw [show (1 : Nat) = 0 + 1 from rfl]
      simp only [mainLoop]
      rcases hcy : cycle (ps 0) c with ⟨m, tr⟩ | tr <;> simp [hcy, hren]
    · intro e he
      rcases hcy : cycle (ps 0) c with ⟨m, tr⟩ | tr
      · have h1 : mainLoop ps c 1 = .died m tr := by
          rw [show (1 : Nat) = 0 + 1 from rfl]
          simp [mainLoop, hcy]
        rw [h1] at he
        exact cycle_no_sleep (ps 0) c e
          (by rw [hcy]; simpa [traceOf, RunResult.trace] using he)
      · have h1 : mainLoop ps c 1 = .done tr := by
          rw [show (1 : Nat) = 0 + 1 from rfl]
          simp [mainLoop, hcy, hren]
        rw [h1] at he
        exact cycle_no_sleep (ps 0) c e
          (by rw [hcy]; simpa [traceOf, RunResult.trace] using he)
  · intro hren
    constructor
    · intro fuel
      induction fuel generalizing ps with
      | zero =>
        intro tr h
        simp only [mainLoop] at h
        exact RunResult.noConfusion h
      | succ n ih =>
        intro tr h
        rcases hcy : cycle (ps 0) c with ⟨m, trE⟩ | trE <;>
          simp only [mainLoop, hcy, hren, if_true] at h
        · exact RunResult.noConfusion h
        · rcases hml : mainLoop (fun k => ps (k + 1)) c n with trD | ⟨mD, trD⟩ | trD <;>
            rw [hml] at h <;> simp only [RunResult.prependTrace] at h
          · exact absurd hml (ih (fun k => ps (k + 1)) trD)
          · exact RunResult.noConfusion h
          · exact RunResult.noConfusion h
    · intro fuel tr hcy
      simp only [mainLoop, hcy, hren, if_true]

/-- C7 witness: the loop behaviour at a concrete oracle with renewal off
(cfgBase) and with renewal on (cfgRenew). -/
theorem c7_witness :
    ((cfgBase.renew = false →
      (∀ fuel, 1 ≤ fuel → mainLoop (fun _ => pAllOk) cfgBase fuel =
        mainLoop (fun _ => pAllOk) cfgBase 1) ∧
      ∀ e ∈ (mainLoop (fun _ => pAllOk) cfgBase 1).trace, e.isSleep = false) ∧
    (cfgBase.renew = true →
      (∀ fuel tr, mainLoop (fun _ => pAllOk) cfgBase fuel ≠ .done tr) ∧
      ∀ fuel tr, cycle pAllOk cfgBase = .ok tr →
        mainLoop (fun _ => pAllOk) cfgBase (fuel + 1) =
          RunResult.prependTrace
            (tr ++ [Event.sleepSec (cfgBase.targetDuration.tdiv 2)])
            (mainLoop (fun _ => pAllOk) cfgBase fuel))) ∧
    ∀ fuel tr, mainLoop (fun _ => pAllOk) cfgRenew fuel ≠ .done tr :=
  ⟨c7_renew_loop (fun _ => pAllOk) cfgBase,
   ((c7_renew_loop (fun _ => pAllOk) cfgRenew).2 rfl).1⟩
